import Mathlib

/-!
# GoldenDict main window: dictionary registry, index reclamation, word list

A shallow embedding of `src/mainwindow.cc`.  The window object is a record of the
fields the functions read and write; every member function is a pure function on
that record.  Calls that leave the file (Qt directory listing, the format parsers,
the word finder) are arguments of the functions that make them.

Conventions:
* a `QString` is the list of its characters, a `std::vector` is a list, a
  `std::set< string >` is a list used through membership only;
* container sizes are natural numbers and `int` indices are integers; the element
  counts handled here (configured groups, word-list rows) are those of `int`-indexed
  Qt widgets, so the `(int)` casts of sizes are value preserving;
* the `unsigned` counters of `updateStatusLine` are reduced modulo `2 ^ 32`;
* a reference to a dictionary vector is the name of the vector it points to.
-/

set_option autoImplicit false

namespace GoldenDict

/-! ## Data model -/

/-- A Qt string, as the sequence of its characters. -/
abbrev QString := List Char

/-- The part of the `Dictionary::Class` interface the main window calls. -/
structure Dictionary where
  getId : String
  getName : String
  getArticleCount : Nat
  getWordCount : Nat
deriving DecidableEq, Repr

namespace Config

/-- Modelled from the spec: `config.hh` is not in src; a configured group is a name
plus an ordered list of dictionary identifiers. -/
structure Group where
  name : QString
  dictionaries : List String
deriving DecidableEq, Repr

/-- The configuration fields used by the main window: `cfg.paths`, `cfg.groups`. -/
structure Class where
  paths : List QString
  groups : List Group
deriving DecidableEq, Repr

end Config

namespace Instances

/-- A group instance: a name and the handles it resolved to. -/
structure Group where
  name : QString
  dictionaries : List Dictionary
deriving DecidableEq, Repr

/-- Modelled from the spec: `instances.hh` is not in src; the constructor
`Instances::Group( cfgGroup, allDictionaries )` resolves each configured identifier
against the active set, drops identifiers with no match and keeps the order. -/
def Group.make (g : Config.Group) (allDictionaries : List Dictionary) : Group :=
  { name := g.name
    dictionaries := g.dictionaries.filterMap
      (fun id => allDictionaries.find? (fun d => d.getId == id)) }

end Instances

/-- The address of a dictionary vector: either the member `dictionaries` or the
member `dictionaries` of the group instance at a given position. -/
inductive DictsRef where
  | dictionaries : DictsRef
  | groupInstance : Nat → DictsRef
deriving DecidableEq, Repr

/-- The message shown by `updateStatusLine`: "%1 dictionaries, %2 articles, %3 words". -/
structure StatusMessage where
  dictionaries : Nat
  articles : Nat
  words : Nat
deriving DecidableEq, Repr

/-- The widgets of `ui` that the modelled functions touch. -/
structure Ui where
  translateLine : QString
  wordList : List QString
  wordListWaitCursor : Bool
  groupListCurrentIndex : Int
  groupListVisible : Bool
  statusBar : Option StatusMessage
deriving DecidableEq, Repr

/-- The fields of `MainWindow` that the modelled functions touch. -/
structure MainWindow where
  cfg : Config.Class
  dictionaries : List Dictionary
  groupInstances : List Instances.Group
  initializing : Bool
  ui : Ui
deriving DecidableEq, Repr

/-- The value behind a dictionary-vector reference; `none` when the reference points
past the end of `groupInstances`. -/
def MainWindow.deref (w : MainWindow) : DictsRef → Option (List Dictionary)
  | .dictionaries => some w.dictionaries
  | .groupInstance i => (w.groupInstances[i]?).map (fun g => g.dictionaries)

/-- The argument and result of a word-finder request. -/
structure WordFinderResults where
  requestStr : QString
  requestDicts : DictsRef
  results : List QString
deriving DecidableEq, Repr

/-- Modelled from the spec: `wordfinder.hh` is not in src; the two-argument
constructor `WordFinderResults( req, dicts )` tags the context and leaves the result
list empty. -/
def WordFinderResults.make (req : QString) (dicts : DictsRef) : WordFinderResults :=
  { requestStr := req, requestDicts := dicts, results := [] }

/-- A call made by `translateInputChanged`. -/
inductive Call where
  | prefixMatchComplete : WordFinderResults → Call
  | prefixMatch : QString → DictsRef → Call
deriving DecidableEq, Repr

/-! ## Status line -/

/-- The counting loop of `updateStatusLine`: `for( unsigned x = size; x--; )` visits
the handles from the last to the first and adds into two `unsigned` counters. -/
def countLoop (dictionaries : List Dictionary) : Nat × Nat :=
  dictionaries.reverse.foldl
    (fun acc d => ((acc.1 + d.getArticleCount) % 2 ^ 32, (acc.2 + d.getWordCount) % 2 ^ 32))
    (0, 0)

/-- `MainWindow::updateStatusLine`. -/
def updateStatusLine (w : MainWindow) : MainWindow :=
  let counts := countLoop w.dictionaries
  let message : StatusMessage :=
    { dictionaries := w.dictionaries.length, articles := counts.1, words := counts.2 }
  { w with ui := { w.ui with statusBar := some message } }

/-! ## Lookup target -/

/-- `MainWindow::getActiveDicts`: the vector the returned reference points to. -/
def getActiveDicts (w : MainWindow) : DictsRef :=
  if w.cfg.groups.isEmpty then .dictionaries
  else
    let current := w.ui.groupListCurrentIndex
    if current < 0 ∨ current ≥ (w.groupInstances.length : Int) then .dictionaries
    else .groupInstance current.toNat

/-! ## Word list -/

/-- `QString::trimmed`: whitespace removed from both ends, for the given `QChar::isSpace`. -/
def trimmed (isSpace : Char → Bool) (s : QString) : QString :=
  ((s.dropWhile isSpace).reverse.dropWhile isSpace).reverse

/-- The first loop of `prefixMatchComplete`, from index `x` on: a missing row is
appended, a row with another text is overwritten. -/
def setItems : Nat → List QString → List QString → List QString
  | _, [], wordList => wordList
  | x, t :: ts, wordList =>
    match wordList[x]? with
    | none => setItems (x + 1) ts (wordList ++ [t])
    | some i => setItems (x + 1) ts (if i ≠ t then wordList.set x t else wordList)

/-- `QListWidget::takeItem`: removes and returns the row, or returns null. -/
def takeItem (wordList : List QString) (row : Int) : Option QString × List QString :=
  if 0 ≤ row ∧ row < (wordList.length : Int) then
    (wordList[row.toNat]?, wordList.eraseIdx row.toNat)
  else (none, wordList)

/-- The second loop of `prefixMatchComplete`, `while ( count() > (int) size )`, run
for at most `fuel` rounds. -/
def chopLoop : Nat → Nat → List QString → List QString
  | 0, _, wordList => wordList
  | fuel + 1, size, wordList =>
    if (wordList.length : Int) > (size : Int) then
      match takeItem wordList ((wordList.length : Int) - 1) with
      | (some _, rest) => chopLoop fuel size rest
      | (none, _) => wordList
    else wordList

/-- `MainWindow::prefixMatchComplete`.  The chop loop removes one row per round, so
`count()` rounds are enough. -/
def prefixMatchComplete (isSpace : Char → Bool) (w : MainWindow) (r : WordFinderResults) :
    MainWindow :=
  if r.requestStr ≠ trimmed isSpace w.ui.translateLine ∨ r.requestDicts ≠ getActiveDicts w then
    w
  else
    let filled := setItems 0 r.results w.ui.wordList
    let chopped := chopLoop filled.length r.results.length filled
    { w with ui := { w.ui with wordList := chopped, wordListWaitCursor := false } }

/-- `MainWindow::translateInputChanged`: the window afterwards and the calls made. -/
def translateInputChanged (isSpace : Char → Bool) (w : MainWindow) (newValue : QString) :
    MainWindow × List Call :=
  let req := trimmed isSpace newValue
  if req.length = 0 then
    let r := WordFinderResults.make req (getActiveDicts w)
    (prefixMatchComplete isSpace w r, [Call.prefixMatchComplete r])
  else
    ({ w with ui := { w.ui with wordListWaitCursor := true } },
      [Call.prefixMatch req (getActiveDicts w)])

/-! ## Loading -/

/-- The regular files of `Config::getIndexDir()`, by name; this is also what
`indexDir.entryList( QDir::Files )` lists. -/
abbrev IndexDir := List QString

/-- The behaviour of one `Format::makeDictionaries( fileNames, indicesDir, initializing )`
call: the handles it returns and the index directory it leaves behind. -/
abbrev MakeDictionaries := List String → IndexDir → List Dictionary × IndexDir

/-- The four format parsers that `LoadDictionaries::run` instantiates. -/
structure Formats where
  bgl : MakeDictionaries
  stardict : MakeDictionaries
  lsa : MakeDictionaries
  dsl : MakeDictionaries

/-- `LoadDictionaries::run`: every format is handed `allFiles`, and its handles are
appended to `dictionaries`. -/
def LoadDictionaries.run (formats : Formats) (allFiles : List String) (indexDir : IndexDir) :
    List Dictionary × IndexDir :=
  let bglResult := formats.bgl allFiles indexDir
  let dictionaries := bglResult.1
  let stardictResult := formats.stardict allFiles bglResult.2
  let dictionaries := dictionaries ++ stardictResult.1
  let lsaResult := formats.lsa allFiles stardictResult.2
  let dictionaries := dictionaries ++ lsaResult.1
  let dslResult := formats.dsl allFiles lsaResult.2
  let dictionaries := dictionaries ++ dslResult.1
  (dictionaries, dslResult.2)

/-- Modelled from the spec: the parsers (`bgl.hh`, `stardict.hh`, `lsa.hh`, `dsl.hh`)
are not in src; by section 4.1 a parser probes one candidate file at a time and either
rejects it or parses it into one handle. -/
structure Parser where
  probe : String → Option Dictionary

/-- Modelled from the spec: a parser applied to a file list yields the handles of the
files it accepts, in file order; the index directory gains the identifiers of the
accepted dictionaries. -/
def Parser.makeDictionaries (toIndexName : String → QString) (p : Parser) : MakeDictionaries :=
  fun fileNames indexDir =>
    let accepted := fileNames.filterMap p.probe
    (accepted, indexDir ++ (accepted.map (fun d => toIndexName d.getId)).filter
      (fun n => !(indexDir.contains n)))

/-- The number of the given parsers that accept a file. -/
def acceptCount (parsers : List Parser) (file : String) : Nat :=
  (parsers.filter (fun p => (p.probe file).isSome)).length

/-! ## Rescan -/

/-- The statement of the try block of `makeDictionaries` at which an exception is
raised: while the directories are enumerated, while the dictionaries are loaded, or
when the collection of live identifiers starts. -/
inductive Fault where
  | scanning : Fault
  | loading : Fault
  | reclaiming : Fault
deriving DecidableEq, Repr

/-- What the calls that leave the file return. -/
structure Env where
  entryList : QString → List QString
  nativeFilePath : QString → QString → String
  toLocal8Bit : QString → String
  groupListFill : List Instances.Group → Int
  formats : Formats
  fault : Option Fault

/-- The window together with the index directory on disk. -/
structure State where
  window : MainWindow
  indexDir : IndexDir

/-- The directory traversal of `makeDictionaries`: every entry of every configured
path, as a native file path. -/
def scanDirectories (env : Env) (paths : List QString) : List String :=
  paths.foldl
    (fun allFiles dir =>
      (env.entryList dir).foldl (fun files i => files ++ [env.nativeFilePath dir i]) allFiles)
    []

/-- The loop `ids.insert( dictionaries[ x ]->getId() )`, from the last handle to the first. -/
def collectIds (dictionaries : List Dictionary) : List String :=
  dictionaries.reverse.foldl (fun ids d => if d.getId ∈ ids then ids else d.getId :: ids) []

/-- `QDir::remove`: the named file is no longer in the directory. -/
def QDir.remove (dir : IndexDir) (fileName : QString) : IndexDir :=
  dir.filter (fun f => decide (f ≠ fileName))

/-- The stale-index loop of `makeDictionaries`: a listed file is removed when its name
is not in `ids` and has size 32. -/
def removeStaleIndexFiles (toLocal8Bit : QString → String) (dictionaries : List Dictionary)
    (indexDir : IndexDir) : IndexDir :=
  let ids := collectIds dictionaries
  let allIdxFiles := indexDir
  allIdxFiles.foldl
    (fun dir i => if toLocal8Bit i ∉ ids ∧ i.length = 32 then QDir.remove dir i else dir)
    indexDir

/-- `MainWindow::updateGroupList`. -/
def updateGroupList (env : Env) (w : MainWindow) : MainWindow :=
  let haveGroups := decide (w.cfg.groups.length ≠ 0)
  let groupInstances := w.cfg.groups.map (fun g => Instances.Group.make g w.dictionaries)
  { w with
    groupInstances := groupInstances
    ui := { w.ui with
      groupListVisible := haveGroups
      groupListCurrentIndex := env.groupListFill groupInstances } }

/-- The three calls that end a successful `makeDictionaries`; `makeScanPopup` changes
none of the modelled fields. -/
def finishRescan (env : Env) (w : MainWindow) : MainWindow :=
  updateGroupList env (updateStatusLine w)

/-- `MainWindow::makeDictionaries`: the state afterwards, and whether the call returned
or rethrew. -/
def makeDictionaries (env : Env) (s : State) : State × Except Fault Unit :=
  let cleared : MainWindow := { s.window with dictionaries := [] }
  let entered : MainWindow := { cleared with initializing := true }
  if env.fault = some Fault.scanning then
    ({ s with window := { entered with initializing := false } }, .error Fault.scanning)
  else
    let allFiles := scanDirectories env entered.cfg.paths
    if env.fault = some Fault.loading then
      ({ s with window := { entered with initializing := false } }, .error Fault.loading)
    else
      let loaded := LoadDictionaries.run env.formats allFiles s.indexDir
      let swapped : MainWindow := { entered with dictionaries := loaded.1, initializing := false }
      if env.fault = some Fault.reclaiming then
        ({ window := swapped, indexDir := loaded.2 }, .error Fault.reclaiming)
      else
        let indexDir := removeStaleIndexFiles env.toLocal8Bit swapped.dictionaries loaded.2
        ({ window := finishRescan env swapped, indexDir := indexDir }, .ok ())

/-! ## Rescan, statement by statement -/

/-- The control points of `makeDictionaries`, named after what has just happened. -/
inductive Pc where
  | entry : Pc
  | lockedClear : Pc
  | cleared : Pc
  | tryEntered : Pc
  | started : Pc
  | joined : Pc
  | lockedSwap : Pc
  | swapped : Pc
  | reclaiming : Pc
  | finishing : Pc
  | caught : Pc
  | done : Pc
  | failed : Pc
deriving DecidableEq, Repr

/-- Whether a `DictLock` guard is alive at a control point: inside the two braces
`{ DictLock _; ... }`. -/
def Pc.lockHeld : Pc → Bool
  | .lockedClear => true
  | .cleared => true
  | .lockedSwap => true
  | .swapped => true
  | _ => false

/-- The state at a control point: the window and index directory, the locals
`allFiles` and `loadDicts.getDictionaries()`, and the exception in flight. -/
structure Frame where
  pc : Pc
  state : State
  allFiles : List String
  loaded : List Dictionary
  thrown : Option Fault

/-- The frame at the call of `makeDictionaries`. -/
def Frame.init (s : State) : Frame :=
  { pc := .entry, state := s, allFiles := [], loaded := [], thrown := none }

/-- One statement of `makeDictionaries`; `none` once the call has returned or rethrown.
The event loop runs, and queries are served, at `started`. -/
def step (env : Env) (f : Frame) : Option Frame :=
  match f.pc with
  | .entry => some { f with pc := .lockedClear }
  | .lockedClear =>
    some { f with pc := .cleared
                  state := { f.state with window := { f.state.window with dictionaries := [] } } }
  | .cleared =>
    some { f with pc := .tryEntered
                  state := { f.state with window := { f.state.window with initializing := true } } }
  | .tryEntered =>
    if env.fault = some Fault.scanning then
      some { f with pc := .caught, thrown := some Fault.scanning }
    else
      some { f with pc := .started, allFiles := scanDirectories env f.state.window.cfg.paths }
  | .started =>
    if env.fault = some Fault.loading then
      some { f with pc := .caught, thrown := some Fault.loading }
    else
      let result := LoadDictionaries.run env.formats f.allFiles f.state.indexDir
      some { f with pc := .joined, loaded := result.1
                    state := { f.state with indexDir := result.2 } }
  | .joined => some { f with pc := .lockedSwap }
  | .lockedSwap =>
    some { f with pc := .swapped
                  state := { f.state with
                    window := { f.state.window with dictionaries := f.loaded } } }
  | .swapped =>
    some { f with pc := .reclaiming
                  state := { f.state with
                    window := { f.state.window with initializing := false } } }
  | .reclaiming =>
    if env.fault = some Fault.reclaiming then
      some { f with pc := .caught, thrown := some Fault.reclaiming }
    else
      some { f with pc := .finishing
                    state := { f.state with
                      indexDir := removeStaleIndexFiles env.toLocal8Bit
                        f.state.window.dictionaries f.state.indexDir } }
  | .finishing =>
    some { f with pc := .done
                  state := { f.state with window := finishRescan env f.state.window } }
  | .caught =>
    some { f with pc := .failed
                  state := { f.state with
                    window := { f.state.window with initializing := false } } }
  | .done => none
  | .failed => none

/-- The frame after at most `n` statements. -/
def exec (env : Env) : Nat → Frame → Frame
  | 0, f => f
  | n + 1, f =>
    match step env f with
    | none => f
    | some g => exec env n g

/-- The sequence that a rescan loads: what the four parsers return for the files
found under the configured paths. -/
def newDictionaries (env : Env) (s : State) : List Dictionary :=
  (LoadDictionaries.run env.formats (scanDirectories env s.window.cfg.paths) s.indexDir).1

/-- The index directory as the parsers leave it, before stale files are removed. -/
def loadedIndexDir (env : Env) (s : State) : IndexDir :=
  (LoadDictionaries.run env.formats (scanDirectories env s.window.cfg.paths) s.indexDir).2

/-- What holds at each control point of a rescan started in state `s`: the active
sequence is the old one until the clear, empty until the swap, the loaded one after. -/
def FrameInv (env : Env) (s : State) (f : Frame) : Prop :=
  match f.pc with
  | .entry => f.state = s
  | .lockedClear => f.state = s
  | .cleared =>
    f.state.window.dictionaries = [] ∧ f.state.window.cfg = s.window.cfg ∧
      f.state.indexDir = s.indexDir
  | .tryEntered =>
    f.state.window.dictionaries = [] ∧ f.state.window.cfg = s.window.cfg ∧
      f.state.indexDir = s.indexDir
  | .started =>
    f.state.window.dictionaries = [] ∧ f.state.indexDir = s.indexDir ∧
      f.allFiles = scanDirectories env s.window.cfg.paths
  | .joined => f.state.window.dictionaries = [] ∧ f.loaded = newDictionaries env s
  | .lockedSwap => f.state.window.dictionaries = [] ∧ f.loaded = newDictionaries env s
  | .swapped => f.state.window.dictionaries = newDictionaries env s
  | .reclaiming => f.state.window.dictionaries = newDictionaries env s
  | .finishing => f.state.window.dictionaries = newDictionaries env s
  | .done => f.state.window.dictionaries = newDictionaries env s
  | .caught =>
    f.state.window.dictionaries = [] ∨ f.state.window.dictionaries = newDictionaries env s
  | .failed =>
    f.state.window.dictionaries = [] ∨ f.state.window.dictionaries = newDictionaries env s

/-- The four formats built from four per-file parsers. -/
def Formats.ofParsers (toIndexName : String → QString) (bgl stardict lsa dsl : Parser) :
    Formats :=
  { bgl := Parser.makeDictionaries toIndexName bgl
    stardict := Parser.makeDictionaries toIndexName stardict
    lsa := Parser.makeDictionaries toIndexName lsa
    dsl := Parser.makeDictionaries toIndexName dsl }

/-! ## Sample inputs -/

/-- A dictionary in Babylon format. -/
def sampleBgl : Dictionary :=
  { getId := "0123456789abcdef0123456789abcdef", getName := "Babylon", getArticleCount := 3,
    getWordCount := 5 }

/-- A dictionary in StarDict format with counters near the top of the `unsigned` range. -/
def sampleStardict : Dictionary :=
  { getId := "fedcba9876543210fedcba9876543210", getName := "StarDict",
    getArticleCount := 4294967295, getWordCount := 4294967290 }

/-- Accepts every file ending in `.bgl`. -/
def bglParser : Parser :=
  { probe := fun file => if ".bgl".toList.isSuffixOf file.toList then some sampleBgl else none }

/-- Accepts every file. -/
def greedyParser : Parser :=
  { probe := fun _ => some sampleStardict }

/-- Accepts no file. -/
def idleParser : Parser :=
  { probe := fun _ => none }

/-- One configured path holding one Babylon file; no exception. -/
def sampleEnv : Env :=
  { entryList := fun _ => ["en.bgl".toList]
    nativeFilePath := fun dir i => String.mk (dir ++ '/' :: i)
    toLocal8Bit := String.mk
    groupListFill := fun groups => if groups.isEmpty then -1 else 0
    formats := Formats.ofParsers String.toList bglParser idleParser idleParser idleParser
    fault := none }

/-- The same surroundings, with an exception while the directories are enumerated. -/
def scanFaultEnv : Env :=
  { sampleEnv with fault := some Fault.scanning }

/-- A window with no groups, showing the StarDict dictionary and two words. -/
def sampleWindow : MainWindow :=
  { cfg := { paths := ["dicts".toList], groups := [] }
    dictionaries := [sampleStardict]
    groupInstances := []
    initializing := false
    ui := { translateLine := " ca ".toList
            wordList := ["dog".toList, "cat".toList, "cow".toList]
            wordListWaitCursor := true
            groupListCurrentIndex := -1
            groupListVisible := false
            statusBar := none } }

/-- A window with two configured groups, the second one selected. -/
def groupedWindow : MainWindow :=
  { sampleWindow with
    cfg := { paths := ["dicts".toList],
             groups := [{ name := "All".toList, dictionaries := [sampleBgl.getId] },
                        { name := "Star".toList, dictionaries := [sampleStardict.getId] }] }
    dictionaries := [sampleBgl, sampleStardict]
    groupInstances := [{ name := "All".toList, dictionaries := [sampleBgl] },
                       { name := "Star".toList, dictionaries := [sampleStardict] }]
    ui := { sampleWindow.ui with groupListCurrentIndex := 1, groupListVisible := true } }

/-- The sample window over an index directory holding the StarDict index, an orphan
index and a note. -/
def sampleState : State :=
  { window := sampleWindow
    indexDir := ["fedcba9876543210fedcba9876543210".toList,
                 "00000000000000000000000000000000".toList,
                 "README".toList] }

/-- The sample surroundings, with an exception when index reclamation starts. -/
def reclaimFaultEnv : Env :=
  { sampleEnv with fault := some Fault.reclaiming }

/-- The grouped window with its two handles in the other order. -/
def reorderedWindow : MainWindow :=
  { groupedWindow with dictionaries := [sampleStardict, sampleBgl] }

/-- A result for the request `do`, computed on the full set. -/
def staleResult : WordFinderResults :=
  { requestStr := "do".toList, requestDicts := DictsRef.dictionaries,
    results := ["dog".toList] }

/-- A result for the request `ca`, computed on the full set. -/
def freshResult : WordFinderResults :=
  { requestStr := "ca".toList, requestDicts := DictsRef.dictionaries,
    results := ["cab".toList, "car".toList] }

/-- The sample state before any dictionary was loaded, as at the first call. -/
def emptyState : State :=
  { sampleState with window := { sampleWindow with dictionaries := [] } }

/-- A dictionary in DSL format. -/
def sampleDsl : Dictionary :=
  { getId := "00112233445566778899aabbccddeeff", getName := "Lingvo", getArticleCount := 7,
    getWordCount := 9 }

/-- Accepts every file ending in `.dsl`. -/
def dslParser : Parser :=
  { probe := fun file => if ".dsl".toList.isSuffixOf file.toList then some sampleDsl else none }

/-- Whitespace as blank or tab. -/
def blankOrTab (c : Char) : Bool :=
  c == ' ' || c == '\t'

/-! ## Status line: proofs -/

theorem countLoop_foldl (l : List Dictionary) (a b : Nat) :
    l.foldl
      (fun acc d => ((acc.1 + d.getArticleCount) % 2 ^ 32, (acc.2 + d.getWordCount) % 2 ^ 32))
      (a % 2 ^ 32, b % 2 ^ 32)
    = ((a + (l.map Dictionary.getArticleCount).sum) % 2 ^ 32,
       (b + (l.map Dictionary.getWordCount).sum) % 2 ^ 32) := by
  induction l generalizing a b with
  | nil => simp
  | cons d ds ih =>
    simp only [List.foldl_cons, List.map_cons, List.sum_cons]
    rw [Nat.mod_add_mod, Nat.mod_add_mod, ih]
    simp [Nat.add_assoc]

theorem countLoop_eq (l : List Dictionary) :
    countLoop l = ((l.map Dictionary.getArticleCount).sum % 2 ^ 32,
                   (l.map Dictionary.getWordCount).sum % 2 ^ 32) := by
  have h := countLoop_foldl l.reverse 0 0
  simp only [Nat.zero_mod, Nat.zero_add, List.map_reverse, List.sum_reverse] at h
  exact h

/-- C9: the status line reports the number of handles and the two totals, each the sum
over all handles modulo `2 ^ 32`; a window holding a permutation of the handles reports
the same totals; with no handles all three numbers are 0. -/
theorem updateStatusLine_reports (w w2 : MainWindow)
    (hperm : w2.dictionaries.Perm w.dictionaries) :
    (updateStatusLine w).ui.statusBar = some
        { dictionaries := w.dictionaries.length
          articles := (w.dictionaries.map Dictionary.getArticleCount).sum % 2 ^ 32
          words := (w.dictionaries.map Dictionary.getWordCount).sum % 2 ^ 32 }
      ∧ (updateStatusLine w2).ui.statusBar = (updateStatusLine w).ui.statusBar
      ∧ (updateStatusLine { w with dictionaries := [] }).ui.statusBar = some
        { dictionaries := 0, articles := 0, words := 0 } := by
  refine ⟨?_, ?_, ?_⟩
  · simp [updateStatusLine, countLoop_eq]
  · simp only [updateStatusLine, countLoop_eq]
    rw [hperm.length_eq, (hperm.map Dictionary.getArticleCount).sum_eq,
      (hperm.map Dictionary.getWordCount).sum_eq]
  · simp [updateStatusLine, countLoop_eq]

/-! ## Lookup target: proofs -/

/-- C7: with no configured groups the full active set is returned for every value of
the selector; with groups and a selector inside the group instances, exactly that
instance; with groups and any other selector, the full active set; and the reference
returned always points to an existing vector. -/
theorem getActiveDicts_selects (w : MainWindow) :
    (w.cfg.groups = [] →
        getActiveDicts w = DictsRef.dictionaries ∧
        w.deref (getActiveDicts w) = some w.dictionaries)
    ∧ (∀ (i : Nat) (hi : i < w.groupInstances.length),
        w.cfg.groups ≠ [] → w.ui.groupListCurrentIndex = (i : Int) →
        getActiveDicts w = DictsRef.groupInstance i ∧
        w.deref (getActiveDicts w) = some (w.groupInstances.get ⟨i, hi⟩).dictionaries)
    ∧ (w.cfg.groups ≠ [] →
        (w.ui.groupListCurrentIndex < 0 ∨
          w.ui.groupListCurrentIndex ≥ (w.groupInstances.length : Int)) →
        getActiveDicts w = DictsRef.dictionaries ∧
        w.deref (getActiveDicts w) = some w.dictionaries)
    ∧ (w.deref (getActiveDicts w)).isSome = true := by
  refine ⟨?_, ?_, ?_, ?_⟩
  · intro h
    simp [getActiveDicts, h, MainWindow.deref]
  · intro i hi hg hc
    have hne : w.cfg.groups.isEmpty = false := by
      cases hgs : w.cfg.groups with
      | nil => exact absurd hgs hg
      | cons a l => rfl
    have hlt : ¬ ((i : Int) < 0 ∨ (i : Int) ≥ (w.groupInstances.length : Int)) := by
      omega
    have href : getActiveDicts w = DictsRef.groupInstance i := by
      unfold getActiveDicts
      rw [hne, hc]
      simp only [Bool.false_eq_true, if_false, if_neg hlt, Int.toNat_ofNat]
    rw [href]
    refine ⟨rfl, ?_⟩
    simp [MainWindow.deref, List.getElem?_eq_getElem hi]
  · intro hg hc
    have hne : w.cfg.groups.isEmpty = false := by
      cases hgs : w.cfg.groups with
      | nil => exact absurd hgs hg
      | cons a l => rfl
    simp [getActiveDicts, hne, hc, MainWindow.deref]
  · unfold getActiveDicts
    split
    · simp [MainWindow.deref]
    · simp only []
      split
      · simp [MainWindow.deref]
      · rename_i hc
        have hlt : w.ui.groupListCurrentIndex.toNat < w.groupInstances.length := by omega
        simp [MainWindow.deref, List.getElem?_eq_getElem hlt]

/-! ## Word list: proofs -/

theorem trimmed_eq_nil_iff (isSpace : Char → Bool) (s : QString) :
    trimmed isSpace s = [] ↔ ∀ c ∈ s, isSpace c = true := by
  unfold trimmed
  rw [List.reverse_eq_nil_iff, List.dropWhile_eq_nil_iff]
  constructor
  · intro h
    have hnil : s.dropWhile isSpace = [] := by
      cases hd : s.dropWhile isSpace with
      | nil => rfl
      | cons a l =>
        have ha : isSpace a = true := h a (by simp [hd])
        have hna := List.head_dropWhile_not isSpace s (by simp [hd])
        simp [hd] at hna
        simp [ha] at hna
    exact List.dropWhile_eq_nil_iff.mp hnil
  · intro h c hc
    have hnil : s.dropWhile isSpace = [] := List.dropWhile_eq_nil_iff.mpr h
    simp [hnil] at hc

/-- C6: a result whose request string is not the trimmed input line, or whose
dictionary reference is not the active one, leaves the window, and with it every row of
the word list, as it was. -/
theorem prefixMatchComplete_stale (isSpace : Char → Bool) (w : MainWindow)
    (r : WordFinderResults)
    (hstale : r.requestStr ≠ trimmed isSpace w.ui.translateLine ∨
      r.requestDicts ≠ getActiveDicts w) :
    (prefixMatchComplete isSpace w r).ui.wordList = w.ui.wordList ∧
    prefixMatchComplete isSpace w r = w := by
  unfold prefixMatchComplete
  rw [if_pos hstale]
  exact ⟨rfl, rfl⟩

/-- C5: for an input that is empty or all whitespace the trimmed request is empty, the
only call made is the direct delivery to `prefixMatchComplete` of the empty result
tagged with that request and the active dictionaries, and `prefixMatch` is not called;
for an input whose trimmed form is not empty the only call made is `prefixMatch` with
the trimmed request and the active dictionaries. -/
theorem translateInputChanged_dispatch (isSpace : Char → Bool) (w : MainWindow)
    (newValue : QString) :
    ((∀ c ∈ newValue, isSpace c = true) →
        trimmed isSpace newValue = [] ∧
        translateInputChanged isSpace w newValue =
          (prefixMatchComplete isSpace w
              { requestStr := [], requestDicts := getActiveDicts w, results := [] },
            [Call.prefixMatchComplete
              { requestStr := [], requestDicts := getActiveDicts w, results := [] }]) ∧
        ∀ req dicts, Call.prefixMatch req dicts ∉ (translateInputChanged isSpace w newValue).2)
    ∧ (trimmed isSpace newValue ≠ [] →
        (translateInputChanged isSpace w newValue).2 =
          [Call.prefixMatch (trimmed isSpace newValue) (getActiveDicts w)]) := by
  constructor
  · intro h
    have ht : trimmed isSpace newValue = [] := (trimmed_eq_nil_iff isSpace newValue).mpr h
    refine ⟨ht, ?_, ?_⟩
    · simp [translateInputChanged, ht, WordFinderResults.make]
    · intro req dicts
      simp [translateInputChanged, ht]
  · intro h
    have hl : (trimmed isSpace newValue).length ≠ 0 := by
      intro h0
      exact h (List.length_eq_zero.mp h0)
    simp [translateInputChanged, hl]

theorem setItems_append (ts pre rest : List QString) :
    setItems pre.length ts (pre ++ rest) = pre ++ ts ++ rest.drop ts.length := by
  induction ts generalizing pre rest with
  | nil => simp [setItems]
  | cons t ts ih =>
    cases rest with
    | nil =>
      have hnone : (pre ++ ([] : List QString))[pre.length]? = none := by simp
      have hstep := ih (pre ++ [t]) []
      simp only [List.length_append, List.length_singleton, List.append_nil] at hstep
      simp only [setItems, hnone, List.append_nil, hstep]
      simp
    | cons r rs =>
      have hsome : (pre ++ r :: rs)[pre.length]? = some r := by
        rw [List.getElem?_append_right (Nat.le_refl _)]
        simp
      have hset : (if r ≠ t then (pre ++ r :: rs).set pre.length t else pre ++ r :: rs)
          = (pre ++ [t]) ++ rs := by
        by_cases hrt : r = t
        · simp [hrt]
        · simp [hrt]
      have hstep := ih (pre ++ [t]) rs
      simp only [List.length_append, List.length_singleton] at hstep
      simp only [setItems, hsome, hset, hstep]
      simp

theorem setItems_zero (ts wordList : List QString) :
    setItems 0 ts wordList = ts ++ wordList.drop ts.length := by
  have h := setItems_append ts [] wordList
  simpa using h

theorem takeItem_last (wordList : List QString) (hpos : 0 < wordList.length) :
    ∃ i, takeItem wordList ((wordList.length : Int) - 1) = (some i, wordList.dropLast) := by
  have hrange : 0 ≤ (wordList.length : Int) - 1 ∧
      (wordList.length : Int) - 1 < (wordList.length : Int) := by omega
  have htoNat : ((wordList.length : Int) - 1).toNat = wordList.length - 1 := by omega
  have hlt : wordList.length - 1 < wordList.length := by omega
  refine ⟨wordList[wordList.length - 1], ?_⟩
  unfold takeItem
  rw [if_pos hrange, htoNat, List.getElem?_eq_getElem hlt,
    ← List.dropLast_eq_eraseIdx (by omega)]

theorem chopLoop_take (fuel size : Nat) (wordList : List QString)
    (hfuel : wordList.length - size ≤ fuel) :
    chopLoop fuel size wordList = wordList.take size := by
  induction fuel generalizing wordList with
  | zero =>
    have hle : wordList.length ≤ size := by omega
    simp [chopLoop, List.take_of_length_le hle]
  | succ n ih =>
    unfold chopLoop
    by_cases hgt : (wordList.length : Int) > (size : Int)
    · have hpos : 0 < wordList.length := by omega
      obtain ⟨i, hi⟩ := takeItem_last wordList hpos
      rw [if_pos hgt, hi]
      simp only []
      rw [ih wordList.dropLast (by simp; omega), List.dropLast_eq_take, List.take_take]
      congr 1
      omega
    · have hle : wordList.length ≤ size := by omega
      rw [if_neg hgt, List.take_of_length_le hle]

/-- C10: when the request string of a result is the trimmed input line and its
dictionary reference is the active one, the word list afterwards is the result list:
as many rows as results, row `x` showing result `x`, whatever the list held before; an
empty matching result leaves no row. -/
theorem prefixMatchComplete_fresh (isSpace : Char → Bool) (w : MainWindow)
    (r : WordFinderResults)
    (hstr : r.requestStr = trimmed isSpace w.ui.translateLine)
    (hdicts : r.requestDicts = getActiveDicts w) :
    (prefixMatchComplete isSpace w r).ui.wordList = r.results
    ∧ (prefixMatchComplete isSpace w r).ui.wordList.length = r.results.length
    ∧ (∀ x : Nat, (prefixMatchComplete isSpace w r).ui.wordList[x]? = r.results[x]?)
    ∧ (r.results = [] → (prefixMatchComplete isSpace w r).ui.wordList = []) := by
  have hfresh : ¬ (r.requestStr ≠ trimmed isSpace w.ui.translateLine ∨
      r.requestDicts ≠ getActiveDicts w) := by
    simp [hstr, hdicts]
  have hlist : (prefixMatchComplete isSpace w r).ui.wordList = r.results := by
    unfold prefixMatchComplete
    rw [if_neg hfresh]
    simp only []
    rw [chopLoop_take _ _ _ (by omega), setItems_zero]
    simp
  refine ⟨hlist, ?_, ?_, ?_⟩
  · rw [hlist]
  · intro x
    rw [hlist]
  · intro hnil
    rw [hlist, hnil]

/-! ## Index reclamation: proofs -/

theorem mem_collect_foldl (l : List Dictionary) (acc : List String) (x : String) :
    x ∈ l.foldl (fun ids d => if d.getId ∈ ids then ids else d.getId :: ids) acc
      ↔ x ∈ acc ∨ ∃ d ∈ l, d.getId = x := by
  induction l generalizing acc with
  | nil => simp
  | cons d ds ih =>
    rw [List.foldl_cons, ih]
    by_cases hmem : d.getId ∈ acc
    · rw [if_pos hmem]
      constructor
      · rintro (h | ⟨e, he, hx⟩)
        · exact Or.inl h
        · exact Or.inr ⟨e, List.mem_cons_of_mem _ he, hx⟩
      · rintro (h | ⟨e, he, hx⟩)
        · exact Or.inl h
        · rcases List.mem_cons.mp he with heq | hin
          · subst heq
            exact Or.inl (hx ▸ hmem)
          · exact Or.inr ⟨e, hin, hx⟩
    · rw [if_neg hmem]
      constructor
      · rintro (h | ⟨e, he, hx⟩)
        · rcases List.mem_cons.mp h with heq | hin
          · exact Or.inr ⟨d, List.mem_cons_self _ _, heq.symm⟩
          · exact Or.inl hin
        · exact Or.inr ⟨e, List.mem_cons_of_mem _ he, hx⟩
      · rintro (h | ⟨e, he, hx⟩)
        · exact Or.inl (List.mem_cons_of_mem _ h)
        · rcases List.mem_cons.mp he with heq | hin
          · subst heq
            exact Or.inl (hx ▸ List.mem_cons_self _ _)
          · exact Or.inr ⟨e, hin, hx⟩

theorem mem_collectIds (dictionaries : List Dictionary) (x : String) :
    x ∈ collectIds dictionaries ↔ ∃ d ∈ dictionaries, d.getId = x := by
  unfold collectIds
  rw [mem_collect_foldl]
  simp

theorem mem_remove_foldl (stale : QString → Prop) [DecidablePred stale]
    (l dir : IndexDir) (f : QString) :
    f ∈ l.foldl (fun d i => if stale i then QDir.remove d i else d) dir
      ↔ f ∈ dir ∧ ¬ (f ∈ l ∧ stale f) := by
  induction l generalizing dir with
  | nil => simp
  | cons i is ih =>
    rw [List.foldl_cons, ih]
    by_cases hst : stale i
    · rw [if_pos hst]
      simp only [QDir.remove, List.mem_filter, decide_eq_true_eq, List.mem_cons]
      constructor
      · rintro ⟨⟨hd, hne⟩, hrest⟩
        refine ⟨hd, ?_⟩
        rintro ⟨hin | hin, hs⟩
        · exact hne hin
        · exact hrest ⟨hin, hs⟩
      · rintro ⟨hd, hrest⟩
        refine ⟨⟨hd, ?_⟩, ?_⟩
        · intro heq
          exact hrest ⟨Or.inl heq, heq ▸ hst⟩
        · rintro ⟨hin, hs⟩
          exact hrest ⟨Or.inr hin, hs⟩
    · rw [if_neg hst]
      simp only [List.mem_cons]
      constructor
      · rintro ⟨hd, hrest⟩
        refine ⟨hd, ?_⟩
        rintro ⟨hin | hin, hs⟩
        · exact hst (hin ▸ hs)
        · exact hrest ⟨hin, hs⟩
      · rintro ⟨hd, hrest⟩
        refine ⟨hd, ?_⟩
        rintro ⟨hin, hs⟩
        exact hrest ⟨Or.inr hin, hs⟩

theorem mem_removeStaleIndexFiles (toLocal8Bit : QString → String)
    (dictionaries : List Dictionary) (indexDir : IndexDir) (f : QString) :
    f ∈ removeStaleIndexFiles toLocal8Bit dictionaries indexDir
      ↔ f ∈ indexDir ∧ ¬ ((∀ d ∈ dictionaries, d.getId ≠ toLocal8Bit f) ∧ f.length = 32) := by
  unfold removeStaleIndexFiles
  simp only []
  rw [mem_remove_foldl (fun i => toLocal8Bit i ∉ collectIds dictionaries ∧ i.length = 32)]
  rw [mem_collectIds]
  constructor
  · rintro ⟨hd, hrest⟩
    refine ⟨hd, ?_⟩
    rintro ⟨hno, hlen⟩
    exact hrest ⟨hd, fun ⟨d, hdm, hid⟩ => hno d hdm hid, hlen⟩
  · rintro ⟨hd, hrest⟩
    refine ⟨hd, ?_⟩
    rintro ⟨_, hno, hlen⟩
    exact hrest ⟨fun d hdm hid => hno ⟨d, hdm, hid⟩, hlen⟩

/-- C1: stale-index removal, for any handles and any listing of the index directory:
a listed file is gone afterwards exactly when its name is the identifier of no handle
and is 32 characters long; a file named by a handle's identifier, and a file whose name
is not 32 characters long, is still there; no file appears. -/
theorem removeStaleIndexFiles_removes_iff (toLocal8Bit : QString → String)
    (dictionaries : List Dictionary) (indexDir : IndexDir) (f : QString)
    (hf : f ∈ indexDir) :
    (f ∉ removeStaleIndexFiles toLocal8Bit dictionaries indexDir
        ↔ (∀ d ∈ dictionaries, d.getId ≠ toLocal8Bit f) ∧ f.length = 32)
    ∧ ((∃ d ∈ dictionaries, d.getId = toLocal8Bit f) →
        f ∈ removeStaleIndexFiles toLocal8Bit dictionaries indexDir)
    ∧ (f.length ≠ 32 → f ∈ removeStaleIndexFiles toLocal8Bit dictionaries indexDir)
    ∧ (∀ g ∈ removeStaleIndexFiles toLocal8Bit dictionaries indexDir, g ∈ indexDir) := by
  refine ⟨?_, ?_, ?_, ?_⟩
  · rw [mem_removeStaleIndexFiles]
    constructor
    · intro h
      by_contra hc
      exact h ⟨hf, hc⟩
    · intro h hn
      exact hn.2 h
  · rintro ⟨d, hd, hid⟩
    rw [mem_removeStaleIndexFiles]
    exact ⟨hf, fun hc => hc.1 d hd hid⟩
  · intro hlen
    rw [mem_removeStaleIndexFiles]
    exact ⟨hf, fun hc => hlen hc.2⟩
  · intro g hg
    exact ((mem_removeStaleIndexFiles toLocal8Bit dictionaries indexDir g).mp hg).1

/-! ## Rescan: proofs -/

theorem finishRescan_dictionaries (env : Env) (w : MainWindow) :
    (finishRescan env w).dictionaries = w.dictionaries := rfl

theorem makeDictionaries_returns (env : Env) (s : State) (hfault : env.fault = none) :
    (makeDictionaries env s).2 = Except.ok ()
    ∧ (makeDictionaries env s).1.window.dictionaries = newDictionaries env s
    ∧ (makeDictionaries env s).1.indexDir =
        removeStaleIndexFiles env.toLocal8Bit (newDictionaries env s) (loadedIndexDir env s) := by
  simp [makeDictionaries, hfault, newDictionaries, loadedIndexDir, finishRescan_dictionaries]

theorem makeDictionaries_ok_iff (env : Env) (s : State) :
    (makeDictionaries env s).2 = Except.ok () ↔ env.fault = none := by
  constructor
  · intro h
    rcases hfault : env.fault with _ | e
    · rfl
    · cases e <;> simp [makeDictionaries, hfault] at h
  · intro h
    exact (makeDictionaries_returns env s h).1

theorem makeDictionaries_error_iff (env : Env) (s : State) (e : Fault) :
    (makeDictionaries env s).2 = Except.error e ↔ env.fault = some e := by
  rcases hfault : env.fault with _ | e2
  · simp [makeDictionaries, hfault]
  · cases e2 <;> cases e <;> simp [makeDictionaries, hfault]

/-- C2, as amended: when `makeDictionaries` rethrows, the active sequence afterwards
is the empty one if the exception came while directories were enumerated or
dictionaries loaded, and the newly loaded one if it came during index reclamation; so
it is the sequence from before the call exactly when that one was already empty, or
respectively already the newly loaded one; `initializing` is reset in every case. -/
theorem makeDictionaries_failure_state (env : Env) (s : State) (e : Fault)
    (hfail : (makeDictionaries env s).2 = Except.error e) :
    (e = Fault.scanning ∨ e = Fault.loading →
        (makeDictionaries env s).1.window.dictionaries = [])
    ∧ (e = Fault.reclaiming →
        (makeDictionaries env s).1.window.dictionaries = newDictionaries env s)
    ∧ (makeDictionaries env s).1.window.initializing = false
    ∧ (e = Fault.scanning ∨ e = Fault.loading →
        ((makeDictionaries env s).1.window.dictionaries = s.window.dictionaries
          ↔ s.window.dictionaries = []))
    ∧ (e = Fault.reclaiming →
        ((makeDictionaries env s).1.window.dictionaries = s.window.dictionaries
          ↔ s.window.dictionaries = newDictionaries env s)) := by
  have hfault := (makeDictionaries_error_iff env s e).mp hfail
  have hempty : e = Fault.scanning ∨ e = Fault.loading →
      (makeDictionaries env s).1.window.dictionaries = [] := by
    cases e <;> simp [makeDictionaries, hfault]
  have hnew : e = Fault.reclaiming →
      (makeDictionaries env s).1.window.dictionaries = newDictionaries env s := by
    cases e <;> simp [makeDictionaries, hfault, newDictionaries]
  refine ⟨hempty, hnew, ?_, ?_, ?_⟩
  · cases e <;> simp [makeDictionaries, hfault]
  · intro he
    rw [hempty he]
    exact eq_comm
  · intro he
    rw [hnew he]
    exact eq_comm

/-- C2 fails as stated: with the StarDict dictionary active, a rescan that throws while
enumerating directories rethrows and leaves the active sequence empty. -/
theorem makeDictionaries_failure_clears :
    (makeDictionaries scanFaultEnv sampleState).2 = Except.error Fault.scanning
    ∧ sampleState.window.dictionaries = [sampleStardict]
    ∧ (makeDictionaries scanFaultEnv sampleState).1.window.dictionaries = []
    ∧ (makeDictionaries scanFaultEnv sampleState).1.window.dictionaries
        ≠ sampleState.window.dictionaries := by
  refine ⟨rfl, rfl, rfl, ?_⟩
  decide

theorem parser_index_mono (toIndexName : String → QString) (p : Parser)
    (fileNames : List String) (indexDir : IndexDir) (f : QString) (hf : f ∈ indexDir) :
    f ∈ (Parser.makeDictionaries toIndexName p fileNames indexDir).2 := by
  simp only [Parser.makeDictionaries]
  exact List.mem_append_left _ hf

theorem parser_index_written (toIndexName : String → QString) (p : Parser)
    (fileNames : List String) (indexDir : IndexDir) (d : Dictionary)
    (hd : d ∈ (Parser.makeDictionaries toIndexName p fileNames indexDir).1) :
    toIndexName d.getId ∈ (Parser.makeDictionaries toIndexName p fileNames indexDir).2 := by
  simp only [Parser.makeDictionaries] at hd ⊢
  by_cases hin : toIndexName d.getId ∈ indexDir
  · exact List.mem_append_left _ hin
  · apply List.mem_append_right
    rw [List.mem_filter]
    refine ⟨List.mem_map.mpr ⟨d, hd, rfl⟩, ?_⟩
    simp [hin]

theorem run_ofParsers_index (toIndexName : String → QString) (bgl stardict lsa dsl : Parser)
    (allFiles : List String) (indexDir : IndexDir) (d : Dictionary)
    (hd : d ∈ (LoadDictionaries.run (Formats.ofParsers toIndexName bgl stardict lsa dsl)
      allFiles indexDir).1) :
    toIndexName d.getId ∈ (LoadDictionaries.run
      (Formats.ofParsers toIndexName bgl stardict lsa dsl) allFiles indexDir).2 := by
  simp only [LoadDictionaries.run, Formats.ofParsers, List.mem_append] at hd ⊢
  rcases hd with ((hb | hs) | hl) | hdsl
  · exact parser_index_mono _ _ _ _ _ (parser_index_mono _ _ _ _ _
      (parser_index_mono _ _ _ _ _ (parser_index_written _ _ _ _ _ hb)))
  · exact parser_index_mono _ _ _ _ _ (parser_index_mono _ _ _ _ _
      (parser_index_written _ _ _ _ _ hs))
  · exact parser_index_mono _ _ _ _ _ (parser_index_written _ _ _ _ _ hl)
  · exact parser_index_written _ _ _ _ _ hdsl

/-- C4, as amended: after a successful `makeDictionaries`, every file of the index
directory whose name is 32 characters long is named by the identifier of an active
handle, while files with names of another length stay whatever their name; and every
active handle's identifier names an index file, the parsers being those of section 4.1,
which write the index of each dictionary they accept under its identifier, a name that
`toLocal8Bit` reads back. -/
theorem makeDictionaries_index_store (env : Env) (s : State)
    (hok : (makeDictionaries env s).2 = Except.ok ()) :
    (∀ f ∈ (makeDictionaries env s).1.indexDir, f.length = 32 →
        ∃ d ∈ (makeDictionaries env s).1.window.dictionaries, d.getId = env.toLocal8Bit f)
    ∧ (∀ f ∈ loadedIndexDir env s, f.length ≠ 32 → f ∈ (makeDictionaries env s).1.indexDir)
    ∧ (∀ (toIndexName : String → QString) (bgl stardict lsa dsl : Parser),
        env.formats = Formats.ofParsers toIndexName bgl stardict lsa dsl →
        (∀ id, env.toLocal8Bit (toIndexName id) = id) →
        ∀ d ∈ (makeDictionaries env s).1.window.dictionaries,
          toIndexName d.getId ∈ (makeDictionaries env s).1.indexDir
          ∧ ∃ f ∈ (makeDictionaries env s).1.indexDir, env.toLocal8Bit f = d.getId) := by
  have hfault := (makeDictionaries_ok_iff env s).mp hok
  obtain ⟨_, hdicts, hdir⟩ := makeDictionaries_returns env s hfault
  rw [hdicts, hdir]
  refine ⟨?_, ?_, ?_⟩
  · intro f hf hlen
    have hmem := (mem_removeStaleIndexFiles _ _ _ f).mp hf
    by_contra hnone
    apply hmem.2
    refine ⟨?_, hlen⟩
    intro d hd hid
    exact hnone ⟨d, hd, hid⟩
  · intro f hf hlen
    exact (mem_removeStaleIndexFiles _ _ _ f).mpr ⟨hf, fun hc => hlen hc.2⟩
  · intro toIndexName bgl stardict lsa dsl hformats hname d hd
    have hwritten : toIndexName d.getId ∈ loadedIndexDir env s := by
      unfold newDictionaries at hd
      unfold loadedIndexDir
      rw [hformats] at hd ⊢
      exact run_ofParsers_index _ _ _ _ _ _ _ d hd
    have hkept : toIndexName d.getId ∈
        removeStaleIndexFiles env.toLocal8Bit (newDictionaries env s) (loadedIndexDir env s) :=
      (mem_removeStaleIndexFiles _ _ _ _).mpr
        ⟨hwritten, fun hc => hc.1 d hd (hname d.getId).symm⟩
    exact ⟨hkept, toIndexName d.getId, hkept, hname d.getId⟩

/-- C4 fails as stated: a successful rescan leaves the file `README`, which is the
identifier of no active handle, in the index directory. -/
theorem makeDictionaries_keeps_foreign_file :
    (makeDictionaries sampleEnv sampleState).2 = Except.ok ()
    ∧ "README".toList ∈ (makeDictionaries sampleEnv sampleState).1.indexDir
    ∧ ¬ ∃ d ∈ (makeDictionaries sampleEnv sampleState).1.window.dictionaries,
        d.getId = sampleEnv.toLocal8Bit "README".toList := by
  refine ⟨rfl, ?_, ?_⟩
  · decide
  · decide

/-! ## Rescan, statement by statement: proofs -/

theorem frameInv_init (env : Env) (s : State) : FrameInv env s (Frame.init s) := by
  simp [FrameInv, Frame.init]

theorem frameInv_step (env : Env) (s : State) (f g : Frame)
    (hinv : FrameInv env s f) (hstep : step env f = some g) : FrameInv env s g := by
  unfold step at hstep
  cases hpc : f.pc <;> simp only [hpc] at hstep <;> simp only [FrameInv, hpc] at hinv
  case entry =>
    simp only [Option.some.injEq] at hstep
    subst hstep
    simpa [FrameInv] using hinv
  case lockedClear =>
    simp only [Option.some.injEq] at hstep
    subst hstep
    simp [FrameInv, hinv]
  case cleared =>
    simp only [Option.some.injEq] at hstep
    subst hstep
    simpa [FrameInv] using hinv
  case tryEntered =>
    split at hstep
    · simp only [Option.some.injEq] at hstep
      subst hstep
      simp [FrameInv, hinv.1]
    · simp only [Option.some.injEq] at hstep
      subst hstep
      simp [FrameInv, hinv.1, hinv.2.1, hinv.2.2]
  case started =>
    split at hstep
    · simp only [Option.some.injEq] at hstep
      subst hstep
      simp [FrameInv, hinv.1]
    · simp only [Option.some.injEq] at hstep
      subst hstep
      simp [FrameInv, hinv.1, hinv.2.1, hinv.2.2, newDictionaries]
  case joined =>
    simp only [Option.some.injEq] at hstep
    subst hstep
    simpa [FrameInv] using hinv
  case lockedSwap =>
    simp only [Option.some.injEq] at hstep
    subst hstep
    simp [FrameInv, hinv.2]
  case swapped =>
    simp only [Option.some.injEq] at hstep
    subst hstep
    simpa [FrameInv] using hinv
  case reclaiming =>
    split at hstep
    · simp only [Option.some.injEq] at hstep
      subst hstep
      simp [FrameInv, hinv]
    · simp only [Option.some.injEq] at hstep
      subst hstep
      simpa [FrameInv] using hinv
  case finishing =>
    simp only [Option.some.injEq] at hstep
    subst hstep
    simpa [FrameInv, finishRescan_dictionaries] using hinv
  case caught =>
    simp only [Option.some.injEq] at hstep
    subst hstep
    simpa [FrameInv] using hinv
  case done => simp at hstep
  case failed => simp at hstep

theorem frameInv_exec (env : Env) (s : State) (n : Nat) (f : Frame)
    (hinv : FrameInv env s f) : FrameInv env s (exec env n f) := by
  induction n generalizing f with
  | zero => exact hinv
  | succ n ih =>
    unfold exec
    cases hstep : step env f with
    | none => exact hinv
    | some g => exact ih g (frameInv_step env s f g hinv hstep)

theorem exec_makeDictionaries (env : Env) (s : State) :
    (exec env 10 (Frame.init s)).state = (makeDictionaries env s).1
    ∧ ((exec env 10 (Frame.init s)).pc = Pc.done ∨ (exec env 10 (Frame.init s)).pc = Pc.failed)
    ∧ ((exec env 10 (Frame.init s)).thrown = none ↔ (makeDictionaries env s).2 = Except.ok ()) := by
  rcases hfault : env.fault with _ | e
  · simp [exec, step, Frame.init, makeDictionaries, hfault]
  · cases e <;> simp [exec, step, Frame.init, makeDictionaries, hfault]

/-- C3, as amended: at every control point of a rescan at which no `DictLock` guard is
held, the active sequence is the sequence from before the call, the empty sequence, or
the complete newly loaded sequence; while the event loop runs it is the empty one. -/
theorem makeDictionaries_unlocked_observes (env : Env) (s : State) (n : Nat)
    (hunlocked : (exec env n (Frame.init s)).pc.lockHeld = false) :
    ((exec env n (Frame.init s)).state.window.dictionaries = s.window.dictionaries
      ∨ (exec env n (Frame.init s)).state.window.dictionaries = []
      ∨ (exec env n (Frame.init s)).state.window.dictionaries = newDictionaries env s)
    ∧ ((exec env n (Frame.init s)).pc = Pc.started →
        (exec env n (Frame.init s)).state.window.dictionaries = []) := by
  have hinv := frameInv_exec env s n (Frame.init s) (frameInv_init env s)
  generalize exec env n (Frame.init s) = f at hinv hunlocked
  unfold FrameInv at hinv
  cases hpc : f.pc <;> rw [hpc] at hinv hunlocked <;> simp only [] at hinv <;>
    simp [Pc.lockHeld] at hunlocked
  case entry => simp [hinv]
  case tryEntered => simp [hinv.1]
  case started => simp [hinv.1]
  case joined => simp [hinv.1]
  case reclaiming => simp [hinv]
  case finishing => simp [hinv]
  case done => simp [hinv]
  case caught =>
    rcases hinv with h | h <;> simp [h]
  case failed =>
    rcases hinv with h | h <;> simp [h]

/-- C3 fails as stated: in a rescan that replaces the StarDict dictionary by the
Babylon one, the event loop runs with no guard held while the active sequence is empty,
which is neither the old nor the new sequence. -/
theorem makeDictionaries_event_loop_sees_empty :
    (exec sampleEnv 4 (Frame.init sampleState)).pc = Pc.started
    ∧ (exec sampleEnv 4 (Frame.init sampleState)).pc.lockHeld = false
    ∧ (exec sampleEnv 4 (Frame.init sampleState)).state.window.dictionaries = []
    ∧ sampleState.window.dictionaries = [sampleStardict]
    ∧ newDictionaries sampleEnv sampleState = [sampleBgl]
    ∧ ¬ ((exec sampleEnv 4 (Frame.init sampleState)).state.window.dictionaries
          = sampleState.window.dictionaries
        ∨ (exec sampleEnv 4 (Frame.init sampleState)).state.window.dictionaries
          = newDictionaries sampleEnv sampleState) := by
  refine ⟨rfl, rfl, rfl, rfl, rfl, ?_⟩
  decide

/-! ## Loading: proofs -/

theorem run_ofParsers (toIndexName : String → QString) (bgl stardict lsa dsl : Parser)
    (allFiles : List String) (indexDir : IndexDir) :
    (LoadDictionaries.run (Formats.ofParsers toIndexName bgl stardict lsa dsl)
        allFiles indexDir).1
      = allFiles.filterMap bgl.probe ++ allFiles.filterMap stardict.probe
        ++ allFiles.filterMap lsa.probe ++ allFiles.filterMap dsl.probe := by
  simp [LoadDictionaries.run, Formats.ofParsers, Parser.makeDictionaries]

theorem length_filterMap_probe (p : Parser) (files : List String) :
    (files.filterMap p.probe).length
      = (files.map (fun f => if (p.probe f).isSome then 1 else 0)).sum := by
  induction files with
  | nil => rfl
  | cons f fs ih =>
    cases hp : p.probe f with
    | none => simp [List.filterMap_cons, hp, ih]
    | some d => simp [List.filterMap_cons, hp, ih, Nat.add_comm]

theorem acceptCount_four (bgl stardict lsa dsl : Parser) (f : String) :
    acceptCount [bgl, stardict, lsa, dsl] f
      = (if (bgl.probe f).isSome then 1 else 0) + (if (stardict.probe f).isSome then 1 else 0)
        + (if (lsa.probe f).isSome then 1 else 0) + (if (dsl.probe f).isSome then 1 else 0) := by
  unfold acceptCount
  cases hb : (bgl.probe f).isSome <;> cases hs : (stardict.probe f).isSome <;>
    cases hl : (lsa.probe f).isSome <;> cases hd : (dsl.probe f).isSome <;>
    simp [List.filter, hb, hs, hl, hd]

theorem length_run_ofParsers (toIndexName : String → QString) (bgl stardict lsa dsl : Parser)
    (allFiles : List String) (indexDir : IndexDir) :
    (LoadDictionaries.run (Formats.ofParsers toIndexName bgl stardict lsa dsl)
        allFiles indexDir).1.length
      = (allFiles.map (acceptCount [bgl, stardict, lsa, dsl])).sum := by
  rw [run_ofParsers]
  simp only [List.length_append, length_filterMap_probe]
  induction allFiles with
  | nil => rfl
  | cons f fs ih =>
    simp only [List.map_cons, List.sum_cons, acceptCount_four]
    omega

theorem sum_map_le (files : List String) (count : String → Nat) (bound : Nat)
    (h : ∀ f ∈ files, count f ≤ bound) : (files.map count).sum ≤ bound * files.length := by
  induction files with
  | nil => simp
  | cons f fs ih =>
    have hf := h f (List.mem_cons_self _ _)
    have hfs := ih (fun g hg => h g (List.mem_cons_of_mem _ hg))
    simp only [List.map_cons, List.sum_cons, List.length_cons, Nat.mul_succ]
    omega

/-- C8, as amended: for every behaviour of the four parsers, each is run on the
complete list of candidate files, in the order Bgl, Stardict, Lsa, Dsl, and the
sequence produced is their four outputs in that order; with parsers that take one file
at a time, a candidate file yields one handle per parser that accepts it, so the
sequence has at most four handles per file, and at most one per file when no file is
accepted by two parsers. -/
theorem run_one_handle_per_acceptance (formats : Formats) (toIndexName : String → QString)
    (bgl stardict lsa dsl : Parser) (allFiles : List String) (indexDir : IndexDir) :
    (LoadDictionaries.run formats allFiles indexDir).1
      = (formats.bgl allFiles indexDir).1
        ++ (formats.stardict allFiles (formats.bgl allFiles indexDir).2).1
        ++ (formats.lsa allFiles
            (formats.stardict allFiles (formats.bgl allFiles indexDir).2).2).1
        ++ (formats.dsl allFiles
            (formats.lsa allFiles
              (formats.stardict allFiles (formats.bgl allFiles indexDir).2).2).2).1
    ∧ (LoadDictionaries.run (Formats.ofParsers toIndexName bgl stardict lsa dsl)
        allFiles indexDir).1
      = allFiles.filterMap bgl.probe ++ allFiles.filterMap stardict.probe
        ++ allFiles.filterMap lsa.probe ++ allFiles.filterMap dsl.probe
    ∧ (LoadDictionaries.run (Formats.ofParsers toIndexName bgl stardict lsa dsl)
        allFiles indexDir).1.length
      = (allFiles.map (acceptCount [bgl, stardict, lsa, dsl])).sum
    ∧ (LoadDictionaries.run (Formats.ofParsers toIndexName bgl stardict lsa dsl)
        allFiles indexDir).1.length ≤ 4 * allFiles.length
    ∧ ((∀ f ∈ allFiles, acceptCount [bgl, stardict, lsa, dsl] f ≤ 1) →
        (LoadDictionaries.run (Formats.ofParsers toIndexName bgl stardict lsa dsl)
          allFiles indexDir).1.length ≤ allFiles.length) := by
  refine ⟨rfl, run_ofParsers _ _ _ _ _ _ _, length_run_ofParsers _ _ _ _ _ _ _, ?_, ?_⟩
  · rw [length_run_ofParsers]
    apply sum_map_le
    intro f _
    rw [acceptCount_four]
    split <;> split <;> split <;> split <;> omega
  · intro honce
    rw [length_run_ofParsers]
    have h := sum_map_le allFiles (acceptCount [bgl, stardict, lsa, dsl]) 1 honce
    omega

/-- C8 fails as stated: a file accepted by the Bgl parser is still given to the
Stardict parser, and when that one accepts it too the single candidate file yields two
handles. -/
theorem run_two_handles_for_one_file :
    (LoadDictionaries.run
        (Formats.ofParsers String.toList bglParser greedyParser idleParser idleParser)
        ["dicts/en.bgl"] []).1 = [sampleBgl, sampleStardict]
    ∧ ¬ ((LoadDictionaries.run
        (Formats.ofParsers String.toList bglParser greedyParser idleParser idleParser)
        ["dicts/en.bgl"] []).1.length ≤ ["dicts/en.bgl"].length) := by
  refine ⟨rfl, ?_⟩
  decide

/-! ## The statements at sample inputs -/

/-- Stale-index removal on the sample index directory with the StarDict handle live: the orphan goes, the live index and the note stay. -/
theorem removeStaleIndexFiles_removes_iff_witness :
    "00000000000000000000000000000000".toList ∈ sampleState.indexDir
    ∧ "00000000000000000000000000000000".toList ∉
        removeStaleIndexFiles String.mk [sampleStardict] sampleState.indexDir
    ∧ "fedcba9876543210fedcba9876543210".toList ∈
        removeStaleIndexFiles String.mk [sampleStardict] sampleState.indexDir
    ∧ "README".toList ∈
        removeStaleIndexFiles String.mk [sampleStardict] sampleState.indexDir :=
  ⟨by decide,
   (removeStaleIndexFiles_removes_iff String.mk [sampleStardict] sampleState.indexDir
      "00000000000000000000000000000000".toList (by decide)).1.mpr ⟨by decide, by decide⟩,
   (removeStaleIndexFiles_removes_iff String.mk [sampleStardict] sampleState.indexDir
      "fedcba9876543210fedcba9876543210".toList (by decide)).2.1 (by decide),
   (removeStaleIndexFiles_removes_iff String.mk [sampleStardict] sampleState.indexDir
      "README".toList (by decide)).2.2.1 (by decide)⟩

/-- A rescan failing during reclamation keeps the newly loaded sequence; one failing
during the scan leaves the empty sequence, which is the previous one at the first call
and is not the previous one once a dictionary was active. -/
theorem makeDictionaries_failure_state_witness :
    (makeDictionaries reclaimFaultEnv sampleState).2 = Except.error Fault.reclaiming
    ∧ (makeDictionaries reclaimFaultEnv sampleState).1.window.dictionaries
        = newDictionaries reclaimFaultEnv sampleState
    ∧ (makeDictionaries scanFaultEnv sampleState).2 = Except.error Fault.scanning
    ∧ (makeDictionaries scanFaultEnv sampleState).1.window.dictionaries = []
    ∧ (makeDictionaries scanFaultEnv emptyState).1.window.dictionaries
        = emptyState.window.dictionaries
    ∧ (makeDictionaries scanFaultEnv sampleState).1.window.dictionaries
        ≠ sampleState.window.dictionaries :=
  ⟨rfl,
   (makeDictionaries_failure_state reclaimFaultEnv sampleState Fault.reclaiming rfl).2.1 rfl,
   rfl,
   (makeDictionaries_failure_state scanFaultEnv sampleState Fault.scanning rfl).1 (Or.inl rfl),
   ((makeDictionaries_failure_state scanFaultEnv emptyState Fault.scanning rfl).2.2.2.1
      (Or.inl rfl)).mpr rfl,
   fun h => absurd
    (((makeDictionaries_failure_state scanFaultEnv sampleState Fault.scanning rfl).2.2.2.1
      (Or.inl rfl)).mp h) (by decide)⟩

/-- The sample rescan after its last statement and while its event loop runs. -/
theorem makeDictionaries_unlocked_observes_witness :
    (exec sampleEnv 10 (Frame.init sampleState)).pc.lockHeld = false
    ∧ ((exec sampleEnv 10 (Frame.init sampleState)).state.window.dictionaries
          = sampleState.window.dictionaries
      ∨ (exec sampleEnv 10 (Frame.init sampleState)).state.window.dictionaries = []
      ∨ (exec sampleEnv 10 (Frame.init sampleState)).state.window.dictionaries
          = newDictionaries sampleEnv sampleState)
    ∧ (exec sampleEnv 4 (Frame.init sampleState)).pc.lockHeld = false
    ∧ (exec sampleEnv 4 (Frame.init sampleState)).state.window.dictionaries = [] :=
  ⟨rfl, (makeDictionaries_unlocked_observes sampleEnv sampleState 10 rfl).1,
   rfl, (makeDictionaries_unlocked_observes sampleEnv sampleState 4 rfl).2 rfl⟩

/-- The index directory after the sample rescan: the Babylon index is there and named
by the active handle, the active handle has its index file, and the note is kept. -/
theorem makeDictionaries_index_store_witness :
    (makeDictionaries sampleEnv sampleState).2 = Except.ok ()
    ∧ (∃ d ∈ (makeDictionaries sampleEnv sampleState).1.window.dictionaries,
        d.getId = sampleEnv.toLocal8Bit "0123456789abcdef0123456789abcdef".toList)
    ∧ "README".toList ∈ (makeDictionaries sampleEnv sampleState).1.indexDir
    ∧ sampleBgl ∈ (makeDictionaries sampleEnv sampleState).1.window.dictionaries
    ∧ sampleBgl.getId.toList ∈ (makeDictionaries sampleEnv sampleState).1.indexDir
    ∧ (∃ f ∈ (makeDictionaries sampleEnv sampleState).1.indexDir,
        sampleEnv.toLocal8Bit f = sampleBgl.getId) :=
  ⟨rfl,
   (makeDictionaries_index_store sampleEnv sampleState rfl).1
      "0123456789abcdef0123456789abcdef".toList (by decide) (by decide),
   (makeDictionaries_index_store sampleEnv sampleState rfl).2.1
      "README".toList (by decide) (by decide),
   by decide,
   ((makeDictionaries_index_store sampleEnv sampleState rfl).2.2
      String.toList bglParser idleParser idleParser idleParser rfl (fun _ => rfl)
      sampleBgl (by decide)).1,
   ((makeDictionaries_index_store sampleEnv sampleState rfl).2.2
      String.toList bglParser idleParser idleParser idleParser rfl (fun _ => rfl)
      sampleBgl (by decide)).2⟩

/-- A blank input is answered at once with the empty result; the input ` ca ` goes to the word finder. -/
theorem translateInputChanged_dispatch_witness :
    trimmed blankOrTab " \t ".toList = []
    ∧ (translateInputChanged blankOrTab sampleWindow " \t ".toList).2 =
        [Call.prefixMatchComplete
          { requestStr := [], requestDicts := getActiveDicts sampleWindow, results := [] }]
    ∧ (translateInputChanged blankOrTab sampleWindow " ca ".toList).2 =
        [Call.prefixMatch (trimmed blankOrTab " ca ".toList) (getActiveDicts sampleWindow)] :=
  ⟨((translateInputChanged_dispatch blankOrTab sampleWindow " \t ".toList).1 (by decide)).1,
   congrArg Prod.snd
    ((translateInputChanged_dispatch blankOrTab sampleWindow " \t ".toList).1 (by decide)).2.1,
   (translateInputChanged_dispatch blankOrTab sampleWindow " ca ".toList).2 (by decide)⟩

/-- A result for `do` arriving while the input line reads `ca` leaves the three rows in place. -/
theorem prefixMatchComplete_stale_witness :
    staleResult.requestStr ≠ trimmed blankOrTab sampleWindow.ui.translateLine
    ∧ (prefixMatchComplete blankOrTab sampleWindow staleResult).ui.wordList
        = ["dog".toList, "cat".toList, "cow".toList] :=
  ⟨by decide,
   (prefixMatchComplete_stale blankOrTab sampleWindow staleResult (Or.inl (by decide))).1⟩

/-- Without groups the full set is the target; with the second group selected, its handles are. -/
theorem getActiveDicts_selects_witness :
    getActiveDicts sampleWindow = DictsRef.dictionaries
    ∧ getActiveDicts groupedWindow = DictsRef.groupInstance 1
    ∧ groupedWindow.deref (getActiveDicts groupedWindow) = some [sampleStardict] :=
  ⟨((getActiveDicts_selects sampleWindow).1 rfl).1,
   ((getActiveDicts_selects groupedWindow).2.1 1 (by decide) (by decide) rfl).1,
   ((getActiveDicts_selects groupedWindow).2.1 1 (by decide) (by decide) rfl).2⟩

/-- Three candidate files: with the Bgl and Dsl parsers each accepting its own file the
output is one handle per accepted file, Bgl handles first whatever the file order; with
a Stardict parser that accepts everything, the file already accepted by Bgl yields a
second handle. -/
theorem run_one_handle_per_acceptance_witness :
    (LoadDictionaries.run
        (Formats.ofParsers String.toList bglParser idleParser idleParser dslParser)
        ["dicts/ru.dsl", "dicts/en.bgl", "dicts/notes.txt"] []).1
      = [sampleBgl, sampleDsl]
    ∧ (LoadDictionaries.run
        (Formats.ofParsers String.toList bglParser idleParser idleParser dslParser)
        ["dicts/ru.dsl", "dicts/en.bgl", "dicts/notes.txt"] []).1.length ≤ 3
    ∧ (LoadDictionaries.run
        (Formats.ofParsers String.toList bglParser greedyParser idleParser dslParser)
        ["dicts/ru.dsl", "dicts/en.bgl", "dicts/notes.txt"] []).1
      = [sampleBgl, sampleStardict, sampleStardict, sampleStardict, sampleDsl]
    ∧ (LoadDictionaries.run
        (Formats.ofParsers String.toList bglParser greedyParser idleParser dslParser)
        ["dicts/ru.dsl", "dicts/en.bgl", "dicts/notes.txt"] []).1.length
      = 2 + 2 + 1 :=
  ⟨(run_one_handle_per_acceptance
      (Formats.ofParsers String.toList bglParser idleParser idleParser dslParser)
      String.toList bglParser idleParser idleParser dslParser
      ["dicts/ru.dsl", "dicts/en.bgl", "dicts/notes.txt"] []).2.1.trans rfl,
   (run_one_handle_per_acceptance
      (Formats.ofParsers String.toList bglParser idleParser idleParser dslParser)
      String.toList bglParser idleParser idleParser dslParser
      ["dicts/ru.dsl", "dicts/en.bgl", "dicts/notes.txt"] []).2.2.2.2 (by decide),
   (run_one_handle_per_acceptance
      (Formats.ofParsers String.toList bglParser greedyParser idleParser dslParser)
      String.toList bglParser greedyParser idleParser dslParser
      ["dicts/ru.dsl", "dicts/en.bgl", "dicts/notes.txt"] []).1.trans rfl,
   (run_one_handle_per_acceptance
      (Formats.ofParsers String.toList bglParser greedyParser idleParser dslParser)
      String.toList bglParser greedyParser idleParser dslParser
      ["dicts/ru.dsl", "dicts/en.bgl", "dicts/notes.txt"] []).2.2.1.trans (by decide)⟩

/-- Two handles with 3 and 4294967295 articles report 2 articles, in either order. -/
theorem updateStatusLine_reports_witness :
    (updateStatusLine groupedWindow).ui.statusBar
      = some { dictionaries := 2, articles := 2, words := 4294967295 }
    ∧ (updateStatusLine reorderedWindow).ui.statusBar
      = (updateStatusLine groupedWindow).ui.statusBar :=
  ⟨(updateStatusLine_reports groupedWindow reorderedWindow (List.Perm.swap _ _ _)).1.trans
      (by decide),
   (updateStatusLine_reports groupedWindow reorderedWindow (List.Perm.swap _ _ _)).2.1⟩

/-- A result for `ca` arriving while the input line reads ` ca ` replaces the three rows by its two words. -/
theorem prefixMatchComplete_fresh_witness :
    freshResult.requestStr = trimmed blankOrTab sampleWindow.ui.translateLine
    ∧ freshResult.requestDicts = getActiveDicts sampleWindow
    ∧ (prefixMatchComplete blankOrTab sampleWindow freshResult).ui.wordList
        = ["cab".toList, "car".toList] :=
  ⟨by decide, by decide,
   (prefixMatchComplete_fresh blankOrTab sampleWindow freshResult (by decide) (by decide)).1⟩

end GoldenDict
